import Mathlib

set_option maxRecDepth 8192

/-!
Shallow embedding of the hiveden resource-reconciliation code.

Package side: `internal/packages/arch/arch.go` (the `Install` method and the
alpm transaction discipline around it).  Container side:
`internal/docker/docker.go` and `internal/docker/network.go` (container
listing, creation with the network prerequisite check, export of managed
containers) and the CLI `run-all` loop from `cmd/cli/main.go`.

External subsystems (the alpm handle, the Docker daemon) are modelled as
explicit oracle/world records supplying the results of each external call;
the embedded functions record the sequence of calls they issue so that
ordering and release properties can be stated.
-/

/-- An Arch package as seen through alpm: a name and a version string.
Mirrors the fields of `alpm.IPackage` that `Install` reads
(`Name()`, `Version()`). -/
structure Pkg where
  name : String
  version : String
deriving Repr, DecidableEq

/-- A sync (remote) database.  `alpm`'s `Search` matches a query against the
database by the library's own rules (regex over name and description), so the
search behaviour is kept abstract as a function from the query to the result
list; `Install` only ever consumes the returned slice. -/
structure SyncDB where
  search : String → List Pkg

/-- The local package database, as the list of installed packages.
`localDB.Pkg(name)` is an exact-name lookup. -/
def LocalDB.pkg (db : List Pkg) (name : String) : Option Pkg :=
  db.find? fun p => p.name = name

/-! ## Version comparison

Modelled from the spec: `alpm.VerCmp` is an external library function
(go-alpm binding pacman's `alpm_pkg_vercmp`), not code under `src/`.  The
spec (§4.2, §8) requires the package ecosystem's ordering: epoch first, then
segment-wise numeric/alpha comparison of the version, then the release
suffix; with the test vectors Compare("1.9","1.10") = Less,
Compare("2:1.0","1.99") = Greater (epoch dominates), Compare("1.0","1.0")
= Equal.  The definitions below follow pacman's `rpmvercmp`/`parseEVR`
semantics, which realise exactly that description. -/

/-- Alphanumeric test used to find segment boundaries. -/
def isVerAlnum (c : Char) : Bool :=
  c.isAlpha || c.isDigit

/-- Drop leading non-alphanumeric separator characters, returning how many
were dropped together with the remainder. -/
def dropSeps : List Char → Nat × List Char
  | [] => (0, [])
  | c :: cs =>
    if isVerAlnum c then (0, c :: cs)
    else
      let (n, r) := dropSeps cs
      (n + 1, r)

/-- Take the maximal leading run of characters satisfying `p`. -/
def takeRun (p : Char → Bool) : List Char → List Char × List Char
  | [] => ([], [])
  | c :: cs =>
    if p c then
      let (seg, rest) := takeRun p cs
      (c :: seg, rest)
    else ([], c :: cs)

/-- Byte-wise string comparison (C `strcmp`), collapsed to -1/0/1. -/
def strcmpChars : List Char → List Char → Int
  | [], [] => 0
  | [], _ :: _ => -1
  | _ :: _, [] => 1
  | a :: as, b :: bs =>
    if a = b then strcmpChars as bs
    else if a.toNat < b.toNat then -1 else 1

/-- Whether the head character exists and is alphabetic (C `isalpha(*s)`,
where `*s` of an empty string is the NUL byte). -/
def headIsAlpha : List Char → Bool
  | [] => false
  | c :: _ => c.isAlpha

/-- The post-loop "final showdown" of rpmvercmp: a leftover alpha segment
loses to an empty string, any other leftover wins. -/
def rpmFinal (one two : List Char) : Int :=
  if one = [] ∧ two = [] then 0
  else if (one = [] ∧ ¬ headIsAlpha two) ∨ headIsAlpha one then -1
  else 1

/-- The segment-comparison loop of rpmvercmp.  The fuel argument dominates
the number of iterations (each iteration consumes at least one character of
the first string), so callers pass `one.length + 1`. -/
def rpmLoop : Nat → List Char → List Char → Int
  | 0, one, two => rpmFinal one two
  | fuel + 1, one, two =>
    if one = [] ∨ two = [] then rpmFinal one two
    else
      let (n1, one1) := dropSeps one
      let (n2, two1) := dropSeps two
      if one1 = [] ∨ two1 = [] then rpmFinal one1 two1
      else if n1 ≠ n2 then (if n1 < n2 then -1 else 1)
      else
        let isnum := headIsDigit one1
        let p := if isnum then Char.isDigit else Char.isAlpha
        let (seg1, rest1) := takeRun p one1
        let (seg2, rest2) := takeRun p two1
        if seg2 = [] then (if isnum then 1 else -1)
        else if isnum then
          let s1 := seg1.dropWhile fun c => c = '0'
          let s2 := seg2.dropWhile fun c => c = '0'
          if s2.length < s1.length then 1
          else if s1.length < s2.length then -1
          else
            let rc := strcmpChars s1 s2
            if rc = 0 then rpmLoop fuel rest1 rest2 else rc
        else
          let rc := strcmpChars seg1 seg2
          if rc = 0 then rpmLoop fuel rest1 rest2 else rc
where
  headIsDigit : List Char → Bool
    | [] => false
    | c :: _ => c.isDigit

/-- Segment-wise version-fragment comparison (pacman `rpmvercmp`). -/
def rpmvercmp (a b : List Char) : Int :=
  if a = b then 0 else rpmLoop (a.length + 1) a b

/-- Split a full version string into (epoch, version, optional release):
a leading digit run followed by `:` is the epoch (default "0"), and the part
after the last `-` is the release. -/
def splitLastDash : List Char → List Char × Option (List Char)
  | [] => ([], none)
  | c :: cs =>
    match splitLastDash cs with
    | (v, some r) => (c :: v, some r)
    | (v, none) => if c = '-' then ([], some v) else (c :: v, none)

/-- Parse epoch:version-release (pacman `parseEVR`). -/
def parseEVR (s : String) : List Char × List Char × Option (List Char) :=
  let cs := s.data
  let digits := cs.takeWhile Char.isDigit
  let rest := cs.dropWhile Char.isDigit
  let (epoch, verRel) :=
    match rest with
    | ':' :: r => ((if digits = [] then ['0'] else digits), r)
    | _ => (['0'], cs)
  let (ver, rel) := splitLastDash verRel
  (epoch, ver, rel)

/-- Full version comparison (`alpm.VerCmp` / pacman `alpm_pkg_vercmp`):
compare epochs, then versions, then (when both present) releases.
Returns a negative, zero, or positive Int. -/
def verCmp (a b : String) : Int :=
  if a = b then 0
  else
    let (e1, v1, r1) := parseEVR a
    let (e2, v2, r2) := parseEVR b
    let re := rpmvercmp e1 e2
    if re ≠ 0 then re
    else
      let rv := rpmvercmp v1 v2
      if rv ≠ 0 then rv
      else
        match r1, r2 with
        | some x, some y => rpmvercmp x y
        | _, _ => 0

example : verCmp "1.9" "1.10" = -1 := by decide
example : verCmp "2:1.0" "1.99" = 1 := by decide
example : verCmp "1.0" "1.0" = 0 := by decide
example : verCmp "1.0-1" "1.0-2" = -1 := by decide
example : verCmp "1.10" "1.9" = 1 := by decide

/-! ## The Install method (`arch.go`, lines 46-112)

`Install` has two phases: a resolution loop (lines 56-84) that walks the
requested names and all sync databases and collects `toInstall`, and a
transaction phase (lines 91-111) that stages the collected packages into a
single alpm transaction.  Failures of the external alpm calls are injected
through a `TransOracle`; every alpm transaction call that is issued is
recorded in a trace. -/

/-- Errors returned by `Install`, one constructor per `fmt.Errorf` site,
carrying the data interpolated into the message. -/
inductive InstallErr where
  | localDBFailed (msg : String)
  | syncDBsFailed (msg : String)
  | notFound (name : String)
  | initFailed (msg : String)
  | addPkgFailed (name : String) (msg : String)
  | prepareFailed (msg : String)
  | commitFailed (msg : String)
deriving Repr, DecidableEq

/-- The package name an `Install` error message names, when it names one:
only the not-found and add-package errors interpolate an entry name into
their message ("package '%s' not found...", "failed to add package %s..."). -/
def InstallErr.entryName : InstallErr → Option String
  | .notFound n => some n
  | .addPkgFailed n _ => some n
  | _ => none

/-- Calls `Install` makes against the alpm transaction interface. -/
inductive TransEvent where
  | transInit
  | addPkg (name : String)
  | transPrepare
  | transCommit
  | transRelease
deriving Repr, DecidableEq

/-- Failure injection for the external alpm calls: `none` means the call
succeeds, `some msg` means it fails with that message. -/
structure TransOracle where
  localDBErr : Option String
  syncDBsErr : Option String
  initErr : Option String
  addErr : String → Option String
  prepareErr : Option String
  commitErr : Option String

deriving instance DecidableEq for Except

/-- Outcome of the resolution phase: the collected `toInstall` queue (or the
first error) together with the lines printed so far. -/
structure ResolveOut where
  result : Except InstallErr (List Pkg)
  out : List String
deriving Repr, DecidableEq

/-- Body of the inner sync-database loop (arch.go lines 60-83): search the
database, error if the search is empty, otherwise take the first result,
look it up in the local database, and queue it when absent or strictly newer
than the installed version. -/
def processSyncDB (localDB : List Pkg) (db : SyncDB) (name : String) : ResolveOut :=
  match db.search name with
  | [] => ⟨.error (.notFound name), []⟩
  | remotePkg :: _ =>
    match LocalDB.pkg localDB remotePkg.name with
    | some localPkg =>
      if 0 < verCmp remotePkg.version localPkg.version then
        ⟨.ok [remotePkg],
          ["Queueing upgrade for " ++ remotePkg.name ++ " (" ++ localPkg.version ++
            " -> " ++ remotePkg.version ++ ")"]⟩
      else
        ⟨.ok [], [localPkg.name ++ " is already up to date (version " ++
          localPkg.version ++ ")"]⟩
    | none =>
      ⟨.ok [remotePkg],
        ["Queueing new installation for " ++ remotePkg.name ++ " " ++ remotePkg.version]⟩

/-- The inner loop over all sync databases for one requested name, in
database order, concatenating each database's queue contribution. -/
def resolveOne (dbs : List SyncDB) (localDB : List Pkg) (name : String) : ResolveOut :=
  match dbs with
  | [] => ⟨.ok [], []⟩
  | db :: rest =>
    let step := processSyncDB localDB db name
    match step.result with
    | .error e => ⟨.error e, step.out⟩
    | .ok q =>
      let r := resolveOne rest localDB name
      match r.result with
      | .error e => ⟨.error e, step.out ++ r.out⟩
      | .ok q2 => ⟨.ok (q ++ q2), step.out ++ r.out⟩

/-- The outer loop over the requested package names (arch.go lines 58-84). -/
def resolvePackages (dbs : List SyncDB) (localDB : List Pkg) : List String → ResolveOut
  | [] => ⟨.ok [], []⟩
  | n :: rest =>
    let step := resolveOne dbs localDB n
    match step.result with
    | .error e => ⟨.error e, step.out⟩
    | .ok q =>
      let r := resolvePackages dbs localDB rest
      match r.result with
      | .error e => ⟨.error e, step.out ++ r.out⟩
      | .ok q2 => ⟨.ok (q ++ q2), step.out ++ r.out⟩

/-- The queueing decision of the loop body, as a predicate: a first search
result is queued when it is not installed, or installed with a strictly
smaller version than the remote one. -/
def shouldQueue (localDB : List Pkg) (r : Pkg) : Bool :=
  match LocalDB.pkg localDB r.name with
  | some lp => 0 < verCmp r.version lp.version
  | none => true

/-- The queue the resolution loop builds for one name when every database's
search succeeds: one entry per sync database whose first search result
passes the queueing decision (no cross-source deduplication). -/
def sourceQueue (dbs : List SyncDB) (localDB : List Pkg) (name : String) : List Pkg :=
  dbs.filterMap fun db =>
    match db.search name with
    | [] => none
    | r :: _ => if shouldQueue localDB r then some r else none

/-- Replace-or-append a package into the local database (the effect of a
committed install/upgrade on one entry). -/
def upsert (db : List Pkg) (p : Pkg) : List Pkg :=
  if db.any fun q => q.name = p.name then
    db.map fun q => if q.name = p.name then p else q
  else db ++ [p]

/-- Effect of a committed batch on the local database. -/
def applyAll (db : List Pkg) (ps : List Pkg) : List Pkg :=
  ps.foldl upsert db

/-- The first package of the batch whose `AddPkg` call fails under the
oracle, with its error message. -/
def firstAddFailure (ox : TransOracle) : List Pkg → Option (Pkg × String)
  | [] => none
  | p :: rest =>
    match ox.addErr p.name with
    | some e => some (p, e)
    | none => firstAddFailure ox rest

/-- The staging loop (arch.go lines 97-101): `AddPkg` each package in order,
stopping at the first failure.  Returns the result and the `addPkg` events
issued (the failing call included). -/
def runStage (ox : TransOracle) : List Pkg → Except InstallErr Unit × List TransEvent
  | [] => (.ok (), [])
  | p :: rest =>
    match ox.addErr p.name with
    | some e => (.error (.addPkgFailed p.name e), [.addPkg p.name])
    | none =>
      let (r, tr) := runStage ox rest
      (r, .addPkg p.name :: tr)

/-- Outcome of `Install`: the returned error (if any), the alpm transaction
calls issued in order, the local database after the call, and the printed
lines. -/
structure InstallOut where
  result : Except InstallErr Unit
  trace : List TransEvent
  localAfter : List Pkg
  stdout : List String

/-- The transaction phase (arch.go lines 91-111): `TransInit`, then a
deferred `TransRelease` guarding every later exit path, then stage each
package, `TransPrepare`, `TransCommit`.  Only a successful commit changes
the local database. -/
def runTransaction (db : List Pkg) (ox : TransOracle) (toInstall : List Pkg) : InstallOut :=
  match ox.initErr with
  | some e => ⟨.error (.initFailed e), [.transInit], db, []⟩
  | none =>
    let s := runStage ox toInstall
    match s.1 with
    | .error e => ⟨.error e, .transInit :: s.2 ++ [.transRelease], db, []⟩
    | .ok _ =>
      match ox.prepareErr with
      | some e =>
        ⟨.error (.prepareFailed e), .transInit :: s.2 ++ [.transPrepare, .transRelease], db, []⟩
      | none =>
        match ox.commitErr with
        | some e =>
          ⟨.error (.commitFailed e),
            .transInit :: s.2 ++ [.transPrepare, .transCommit, .transRelease], db, []⟩
        | none =>
          ⟨.ok (), .transInit :: s.2 ++ [.transPrepare, .transCommit, .transRelease],
            applyAll db toInstall, ["Installation/upgrade complete."]⟩

/-- The Arch manager state `Install` reads: the local database and the
registered sync databases. -/
structure ArchState where
  localDB : List Pkg
  syncDBs : List SyncDB

/-- The whole of `Install` (arch.go lines 46-112): fetch the databases,
resolve the requested names into `toInstall`, return early when nothing is
queued, otherwise run the single batched transaction. -/
def install (st : ArchState) (ox : TransOracle) (packages : List String) : InstallOut :=
  match ox.localDBErr with
  | some e => ⟨.error (.localDBFailed e), [], st.localDB, []⟩
  | none =>
    match ox.syncDBsErr with
    | some e => ⟨.error (.syncDBsFailed e), [], st.localDB, []⟩
    | none =>
      let res := resolvePackages st.syncDBs st.localDB packages
      match res.result with
      | .error e => ⟨.error e, [], st.localDB, res.out⟩
      | .ok toInstall =>
        if toInstall.isEmpty then
          ⟨.ok (), [], st.localDB, res.out ++ ["No new packages to install or upgrade."]⟩
        else
          let t := runTransaction st.localDB ox toInstall
          ⟨t.result, t.trace, t.localAfter, res.out ++ t.stdout⟩

/-! ## The Docker manager (`docker.go`, `network.go`, `types.go`)

The Docker client is modelled as a `DockerWorld` giving the result of each
API call; the embedded methods record the API calls they issue.  Container
IDs are ASCII hex strings, so Go's byte slicing `c.ID[:12]` coincides with
character slicing; an out-of-range slice (ID shorter than 12) is a Go
runtime panic, modelled by the `crash` outcome. -/

/-- Result of a Go call that can also panic (slice out of range). -/
inductive GoResult (α : Type) where
  | ok (a : α)
  | err (e : String)
  | crash
deriving Repr, DecidableEq

/-- The fields of the Docker API `container.Summary` that the code reads. -/
structure ContainerSummary where
  id : String
  names : List String
  image : String
  imageID : String
  created : Int
  labels : List (String × String)
deriving Repr, DecidableEq

/-- `internal/docker/types.go`: ContainerInfo. -/
structure ContainerInfo where
  id : String
  image : String
  imageID : String
  name : String
  uptime : String
  managedBy : String
deriving Repr, DecidableEq

/-- `internal/docker/types.go`: NetworkInfo / the API `network.Summary`
fields the code reads. -/
structure NetworkSummary where
  id : String
  name : String
deriving Repr, DecidableEq

/-- `internal/docker/types.go` and `cmd/cli/main.go`: a container entry of
the YAML config document. -/
structure ContainerConfig where
  name : String
  image : String
deriving Repr, DecidableEq

/-- The Docker daemon as seen by the code: current time (for uptime
formatting), and the result of each API call.  `containerCreate` maps the
requested image and container name to a created ID or an error. -/
structure DockerWorld where
  now : Int
  networkList : Except String (List NetworkSummary)
  containerList : Bool → Except String (List ContainerSummary)
  containerCreate : String → String → Except String String
  containerStart : String → Option String

/-- Docker API calls issued by the embedded methods. -/
inductive DockerEvent where
  | networkListCall
  | containerListCall (all : Bool)
  | containerCreateCall (image name : String)
  | containerStartCall (id : String)
deriving Repr, DecidableEq

/-- Go map lookup on the label set (keys are unique in a Go map). -/
def lookupLabel : List (String × String) → String → Option String
  | [], _ => none
  | (k, v) :: rest, key => if k = key then some v else lookupLabel rest key

/-- `strings.TrimPrefix(n, "/")`: drop one leading slash if present. -/
def trimSlash (s : String) : String :=
  match s.data with
  | '/' :: rest => ⟨rest⟩
  | _ => s

/-- The first `n` characters of a string (Go `s[:n]` once the bound is
known to be in range). -/
def takeChars (n : Nat) (s : String) : String :=
  ⟨s.data.take n⟩

/-- `formatUptime` (docker.go lines 73-92), for a non-negative elapsed time
(Go truncates float hours/minutes toward zero; integer division agrees on
the non-negative durations this models). -/
def formatUptime (now createdAt : Int) : String :=
  if createdAt = 0 then "N/A"
  else
    let secs := now - createdAt
    let hoursTotal := secs / 3600
    let days := hoursTotal / 24
    let hours := hoursTotal % 24
    let minutes := (secs / 60) % 60
    if 0 < days then toString days ++ " days"
    else if 0 < hours then toString hours ++ " hours"
    else if 0 < minutes then toString minutes ++ " minutes"
    else "Less than a minute"

/-- The per-container body of the `ListContainers` loop (docker.go lines
48-68), assuming the ID slice is in range. -/
def summaryToInfo (now : Int) (c : ContainerSummary) : ContainerInfo :=
  { id := takeChars 12 c.id
    image := c.image
    imageID := c.imageID
    name := match c.names with
      | [] => ""
      | n :: _ => trimSlash n
    uptime := formatUptime now c.created
    managedBy := (lookupLabel c.labels "managed-by").getD "unknown" }

/-- The `ListContainers` loop over the listing: crashes (Go panic) at the
first container whose ID has fewer than 12 characters, since the code
slices `c.ID[:12]` without a guard. -/
def buildInfos (now : Int) : List ContainerSummary → GoResult (List ContainerInfo)
  | [] => .ok []
  | c :: rest =>
    if c.id.length < 12 then .crash
    else
      match buildInfos now rest with
      | .ok infos => .ok (summaryToInfo now c :: infos)
      | .err e => .err e
      | .crash => .crash

/-- `ListContainers` (docker.go lines 41-71). -/
def listContainers (w : DockerWorld) (all : Bool) : GoResult (List ContainerInfo) :=
  match w.containerList all with
  | .error e => .err e
  | .ok cs => buildInfos w.now cs

/-- `NetworkExists` (network.go lines 38-51): list the networks and scan for
the name.  Returns the result together with the API calls issued. -/
def networkExists (w : DockerWorld) (name : String) : Except String Bool × List DockerEvent :=
  match w.networkList with
  | .error e => (.error e, [.networkListCall])
  | .ok ns => (.ok (ns.any fun n => n.name = name), [.networkListCall])

/-- `CreateContainer` (docker.go lines 95-116): check the target network
first; fail without calling `ContainerCreate` when the check errors or
reports false; otherwise issue the creation call (with the `managed-by:
hiveden` label and the network endpoint, which the world's `containerCreate`
result abstracts over). -/
def createContainer (w : DockerWorld) (networkName image cname : String) :
    Except String String × List DockerEvent :=
  let ne := networkExists w networkName
  match ne.1 with
  | .error e => (.error ("failed to check if network exists: " ++ e), ne.2)
  | .ok false => (.error ("network " ++ networkName ++ " does not exist"), ne.2)
  | .ok true =>
    (w.containerCreate image cname, ne.2 ++ [.containerCreateCall image cname])

/-- Modelled from the spec: the yaml library (`gopkg.in/yaml.v2`) is an
external dependency, not in `src/`.  Its marshalling of the export document
`struct{ Containers []ContainerConfig }`, for plain scalar names and
images, renders a nil or empty slice as the explicit empty flow sequence
`containers: []` (the spec: an empty containers list, "not null/absent"),
and a non-empty slice as a block sequence of `name`/`image` mappings in
slice order. -/
def yamlRenderExport (cs : List ContainerConfig) : String :=
  if cs.isEmpty then "containers: []\n"
  else
    "containers:\n" ++
      String.join (cs.map fun c => "- name: " ++ c.name ++ "\n  image: " ++ c.image ++ "\n")

/-- The filter-and-map of `ExportManagedContainers` (docker.go lines
140-148): keep the listed containers whose ownership label is `hiveden`,
mapped to the config schema (name, image), in listing order. -/
def managedConfigs (infos : List ContainerInfo) : List ContainerConfig :=
  (infos.filter fun c => c.managedBy = "hiveden").map fun c => ⟨c.name, c.image⟩

/-- `ExportManagedContainers` (docker.go lines 134-162), up to the final
`os.WriteFile`: the returned string is the YAML document written to the
file. -/
def exportManagedContainers (w : DockerWorld) : GoResult String :=
  match listContainers w true with
  | .err e => .err e
  | .crash => .crash
  | .ok infos => .ok (yamlRenderExport (managedConfigs infos))

/-- The mapping from raw listing entries to exported config entries: label
lookup must yield exactly `hiveden`, and the exported name is the first
listed name with its leading slash trimmed. -/
def managedExportOf (cs : List ContainerSummary) : List ContainerConfig :=
  (cs.filter fun c => lookupLabel c.labels "managed-by" == some "hiveden").map fun c =>
    ⟨(match c.names with
      | [] => ""
      | n :: _ => trimSlash n), c.image⟩

/-- Outcome of the CLI `run-all` loop (`cmd/cli/main.go` lines 165-179):
the command's returned error, the Docker API calls issued, the `log.Printf`
lines, the `fmt.Printf` lines, and whether the loop panicked (on
`resp.ID[:12]` with a short ID). -/
structure RunAllOut where
  err : Option String
  trace : List DockerEvent
  logs : List String
  stdout : List String
  crashed : Bool
deriving Repr, DecidableEq

/-- The `run-all` loop body, per config entry: print, create (failure is
logged and the loop continues), print and start (failure is logged and the
loop continues).  After the loop the command returns nil. -/
def runAllLoop (w : DockerWorld) (networkName : String) : List ContainerConfig → RunAllOut
  | [] => ⟨none, [], [], [], false⟩
  | c :: rest =>
    let line1 := "Creating container " ++ c.name ++ " with image " ++ c.image ++ "..."
    let step := createContainer w networkName c.image c.name
    match step.1 with
    | .error e =>
      let r := runAllLoop w networkName rest
      ⟨r.err, step.2 ++ r.trace,
        ("Failed to create container " ++ c.name ++ ": " ++ e) :: r.logs,
        line1 :: r.stdout, r.crashed⟩
    | .ok cid =>
      if cid.length < 12 then ⟨none, step.2, [], [line1], true⟩
      else
        let line2 := "Starting container " ++ c.name ++ " (" ++ takeChars 12 cid ++ ")..."
        let r := runAllLoop w networkName rest
        match w.containerStart cid with
        | some e =>
          ⟨r.err, step.2 ++ [.containerStartCall cid] ++ r.trace,
            ("Failed to start container " ++ c.name ++ ": " ++ e) :: r.logs,
            line1 :: line2 :: r.stdout, r.crashed⟩
        | none =>
          ⟨r.err, step.2 ++ [.containerStartCall cid] ++ r.trace, r.logs,
            line1 :: line2 :: r.stdout, r.crashed⟩

/-! ## Concrete fixtures used by witnesses and counterexamples -/

/-- An alpm oracle under which every external call succeeds. -/
def oxAllOk : TransOracle :=
  ⟨none, none, none, fun _ => none, none, none⟩

/-- An alpm oracle under which `TransPrepare` fails. -/
def oxPrepareFail : TransOracle :=
  ⟨none, none, none, fun _ => none, some "dep conflict", none⟩

/-- A sync database advertising vim 9.1-1 and nothing else. -/
def dbCore : SyncDB :=
  ⟨fun n => if n = "vim" then [⟨"vim", "9.1-1"⟩] else []⟩

/-- Two sync databases advertising the same package name with different
versions. -/
def dbFooOld : SyncDB :=
  ⟨fun n => if n = "foo" then [⟨"foo", "1.0"⟩] else []⟩

def dbFooNew : SyncDB :=
  ⟨fun n => if n = "foo" then [⟨"foo", "2.0"⟩] else []⟩

/-- A sync database advertising vim 9.1, against a local database holding
vim 9.0. -/
def dbVimNew : SyncDB :=
  ⟨fun n => if n = "vim" then [⟨"vim", "9.1"⟩] else []⟩

def localVimOld : List Pkg := [⟨"vim", "9.0"⟩]

/-- Manager state: nothing installed, one sync database with vim. -/
def stOne : ArchState := ⟨[], [dbCore]⟩

/-- Two managed/unmanaged container summaries for the export fixtures. -/
def sumWeb : ContainerSummary :=
  ⟨"abcdef123456", ["/web"], "nginx:latest", "sha256:xyz", 0, [("managed-by", "hiveden")]⟩

def sumApi : ContainerSummary :=
  ⟨"bbccddeeff00", ["/api"], "httpd:2.4", "sha256:aaa", 0, [("managed-by", "hiveden")]⟩

def sumForeign : ContainerSummary :=
  ⟨"123456abcdef", ["/foreign"], "redis", "sha256:abc", 0, []⟩

/-- A Docker world whose listing holds one managed and one foreign
container. -/
def wOneManaged : DockerWorld :=
  ⟨0, .ok [], fun _ => .ok [sumWeb, sumForeign], fun _ _ => .error "unused", fun _ => none⟩

/-- A Docker world whose listing holds only a foreign container. -/
def wNoneManaged : DockerWorld :=
  ⟨0, .ok [], fun _ => .ok [sumForeign], fun _ _ => .error "unused", fun _ => none⟩

/-- A fixed listing of two managed containers, shared by two worlds. -/
def listAB (_ : Bool) : Except String (List ContainerSummary) :=
  .ok [sumWeb, sumApi]

/-- The same listing in the opposite order. -/
def listBA (_ : Bool) : Except String (List ContainerSummary) :=
  .ok [sumApi, sumWeb]

def wOrderA : DockerWorld :=
  ⟨0, .ok [], listAB, fun _ _ => .error "unused", fun _ => none⟩

def wOrderB : DockerWorld :=
  ⟨0, .ok [], listBA, fun _ _ => .error "unused", fun _ => none⟩

/-- Same listing as `wOrderA` but observed at a different clock time. -/
def wOrderAClock : DockerWorld :=
  ⟨999999, .ok [], listAB, fun _ _ => .error "unused", fun _ => none⟩

/-- A world with no networks at all, for the prerequisite-check witness. -/
def wNoNetwork : DockerWorld :=
  ⟨0, .ok [], fun _ => .ok [], fun _ _ => .ok "aaaaaaaaaaaa", fun _ => none⟩

/-- A world for the run-all fixtures: the hiveden network exists, creation
fails exactly for the image `badimage`, all other creations yield a
12-character ID and all starts succeed. -/
def wRunAll : DockerWorld :=
  ⟨0, .ok [⟨"netid1", "hiveden-network"⟩], fun _ => .ok [],
    fun img _ => if img = "badimage" then .error "invalid reference format"
      else .ok "aaaaaaaaaaaa",
    fun _ => none⟩

/-- A three-entry config whose middle entry has an invalid image. -/
def cfg3 : List ContainerConfig :=
  [⟨"c1", "nginx"⟩, ⟨"c2", "badimage"⟩, ⟨"c3", "redis"⟩]

/-! ## Helper lemmas -/

theorem runStage_all_ok (ox : TransOracle) :
    ∀ ps : List Pkg, (∀ p ∈ ps, ox.addErr p.name = none) →
      runStage ox ps = (.ok (), ps.map fun p => .addPkg p.name)
  | [], _ => rfl
  | p :: rest, h => by
    have hp : ox.addErr p.name = none := h p (List.mem_cons_self _ _)
    have hr := runStage_all_ok ox rest fun q hq => h q (List.mem_cons_of_mem _ hq)
    simp [runStage, hp, hr]

theorem runStage_first_failure (ox : TransOracle) :
    ∀ (ps : List Pkg) (p : Pkg) (msg : String), firstAddFailure ox ps = some (p, msg) →
      (runStage ox ps).1 = .error (.addPkgFailed p.name msg)
  | [], p, msg, h => by simp [firstAddFailure] at h
  | q :: rest, p, msg, h => by
    cases hq : ox.addErr q.name with
    | some e =>
      simp [firstAddFailure, hq] at h
      obtain ⟨rfl, rfl⟩ := h
      simp [runStage, hq]
    | none =>
      simp [firstAddFailure, hq] at h
      have := runStage_first_failure ox rest p msg h
      simp [runStage, hq, this]

theorem runTransaction_trace_shape (db : List Pkg) (ox : TransOracle) (ps : List Pkg)
    (h : ox.initErr = none) :
    ∃ mid, (runTransaction db ox ps).trace = .transInit :: (mid ++ [.transRelease]) := by
  cases hs : (runStage ox ps).1 with
  | error e => exact ⟨(runStage ox ps).2, by simp [runTransaction, h, hs]⟩
  | ok u =>
    cases hp : ox.prepareErr with
    | some e =>
      exact ⟨(runStage ox ps).2 ++ [.transPrepare], by simp [runTransaction, h, hs, hp]⟩
    | none =>
      cases hc : ox.commitErr with
      | some e =>
        exact ⟨(runStage ox ps).2 ++ [.transPrepare, .transCommit],
          by simp [runTransaction, h, hs, hp, hc]⟩
      | none =>
        exact ⟨(runStage ox ps).2 ++ [.transPrepare, .transCommit],
          by simp [runTransaction, h, hs, hp, hc]⟩

theorem runTransaction_err_unchanged (db : List Pkg) (ox : TransOracle) (ps : List Pkg)
    (e : InstallErr) (h : (runTransaction db ox ps).result = .error e) :
    (runTransaction db ox ps).localAfter = db := by
  cases hi : ox.initErr with
  | some m => simp [runTransaction, hi]
  | none =>
    cases hs : (runStage ox ps).1 with
    | error m => simp [runTransaction, hi, hs]
    | ok u =>
      cases hp : ox.prepareErr with
      | some m => simp [runTransaction, hi, hs, hp]
      | none =>
        cases hc : ox.commitErr with
        | some m => simp [runTransaction, hi, hs, hp, hc]
        | none => simp [runTransaction, hi, hs, hp, hc] at h

theorem runStage_events (ox : TransOracle) :
    ∀ (ps : List Pkg) (ev : TransEvent), ev ∈ (runStage ox ps).2 → ∃ n, ev = .addPkg n
  | [], ev, h => by simp [runStage] at h
  | p :: rest, ev, h => by
    cases hq : ox.addErr p.name with
    | some e =>
      simp [runStage, hq] at h
      exact ⟨p.name, h⟩
    | none =>
      simp [runStage, hq] at h
      rcases h with rfl | h2
      · exact ⟨p.name, rfl⟩
      · exact runStage_events ox rest ev h2

theorem buildInfos_ok (now : Int) :
    ∀ cs : List ContainerSummary, (∀ c ∈ cs, 12 ≤ c.id.length) →
      buildInfos now cs = .ok (cs.map (summaryToInfo now))
  | [], _ => rfl
  | c :: rest, h => by
    have hc : 12 ≤ c.id.length := h c (List.mem_cons_self _ _)
    have ih := buildInfos_ok now rest fun d hd => h d (List.mem_cons_of_mem _ hd)
    simp [buildInfos, Nat.not_lt.mpr hc, ih]

theorem buildInfos_crash (now : Int) :
    ∀ cs : List ContainerSummary, (∃ c ∈ cs, c.id.length < 12) →
      buildInfos now cs = .crash
  | [], h => by simp at h
  | c :: rest, h => by
    by_cases hc : c.id.length < 12
    · simp [buildInfos, hc]
    · obtain ⟨d, hd, hlen⟩ := h
      rcases List.mem_cons.mp hd with rfl | hdr
      · exact absurd hlen hc
      · have ih := buildInfos_crash now rest ⟨d, hdr, hlen⟩
        simp [buildInfos, hc, ih]

theorem managedConfigs_map (now : Int) :
    ∀ cs : List ContainerSummary,
      managedConfigs (cs.map (summaryToInfo now)) = managedExportOf cs
  | [] => rfl
  | c :: rest => by
    have ih := managedConfigs_map now rest
    cases hl : lookupLabel c.labels "managed-by" with
    | none =>
      simp only [managedConfigs, managedExportOf, List.map_cons, List.filter_cons] at ih ⊢
      simp only [summaryToInfo, hl, Option.getD]
      rw [if_neg (by decide), if_neg (by decide)]
      exact ih
    | some v =>
      by_cases hv : v = "hiveden"
      · subst hv
        simp only [managedConfigs, managedExportOf, List.map_cons, List.filter_cons] at ih ⊢
        simp only [summaryToInfo, hl, Option.getD]
        rw [if_pos (by decide), if_pos (by decide), List.map_cons, List.map_cons, ih]
      · simp only [managedConfigs, managedExportOf, List.map_cons, List.filter_cons] at ih ⊢
        simp only [summaryToInfo, hl, Option.getD]
        rw [if_neg (by simp [hv]), if_neg (by simp [hv])]
        exact ih

theorem takeChars_length (n : Nat) (s : String) :
    (takeChars n s).length = min n s.length :=
  List.length_take n s.data

/-- Manager state for the multi-source fixture: nothing installed, two sync
databases both advertising `foo`. -/
def stFoo : ArchState := ⟨[], [dbFooOld, dbFooNew]⟩

/-! ## Claims -/

/-- Claim C1 (counterexample): a package apply whose `TransPrepare` call
fails returns the error "failed to prepare transaction: ..." which names no
entry, so the claim that every staging/prepare/commit failure "returns an
error that names the first failing entry" is false; the local database is
nevertheless unchanged. -/
theorem install_prepare_failure_names_no_entry :
    (install stOne oxPrepareFail ["vim"]).result = .error (.prepareFailed "dep conflict") ∧
    InstallErr.entryName (.prepareFailed "dep conflict") = none ∧
    (install stOne oxPrepareFail ["vim"]).localAfter = [] :=
  ⟨by decide, rfl, by decide⟩

/-- Claim C1 (amended): every package-kind apply stages all collected
entries into a single transaction (init, stage each entry in order, prepare,
commit); a staging failure returns an error naming the first failing entry;
a prepare or commit failure returns an error identifying the failed step but
naming no entry; after a staging or prepare failure the commit call is never
issued; and on any failure the local package state is unchanged (the batch
is all-or-nothing). -/
theorem install_single_transaction_atomic (db : List Pkg) (ox : TransOracle) (ps : List Pkg) :
    (ox.initErr = none → (∀ p ∈ ps, ox.addErr p.name = none) → ox.prepareErr = none →
      ox.commitErr = none →
      runTransaction db ox ps =
        ⟨.ok (), .transInit :: (ps.map fun p => .addPkg p.name) ++
          [.transPrepare, .transCommit, .transRelease], applyAll db ps,
          ["Installation/upgrade complete."]⟩) ∧
    (∀ p msg, ox.initErr = none → firstAddFailure ox ps = some (p, msg) →
      (runTransaction db ox ps).result = .error (.addPkgFailed p.name msg) ∧
      TransEvent.transCommit ∉ (runTransaction db ox ps).trace) ∧
    (∀ msg, ox.initErr = none → (∀ p ∈ ps, ox.addErr p.name = none) →
      ox.prepareErr = some msg →
      (runTransaction db ox ps).result = .error (.prepareFailed msg) ∧
      InstallErr.entryName (.prepareFailed msg) = none ∧
      TransEvent.transCommit ∉ (runTransaction db ox ps).trace) ∧
    (∀ msg, ox.initErr = none → (∀ p ∈ ps, ox.addErr p.name = none) →
      ox.prepareErr = none → ox.commitErr = some msg →
      (runTransaction db ox ps).result = .error (.commitFailed msg) ∧
      InstallErr.entryName (.commitFailed msg) = none) ∧
    (∀ e, (runTransaction db ox ps).result = .error e →
      (runTransaction db ox ps).localAfter = db) := by
  refine ⟨?_, ?_, ?_, ?_, fun e he => runTransaction_err_unchanged db ox ps e he⟩
  · intro h1 h2 h3 h4
    simp [runTransaction, h1, runStage_all_ok ox ps h2, h3, h4]
  · intro p msg h1 hf
    have hres := runStage_first_failure ox ps p msg hf
    constructor
    · simp [runTransaction, h1, hres]
    · intro hmem
      have htr : (runTransaction db ox ps).trace =
          .transInit :: (runStage ox ps).2 ++ [.transRelease] := by
        simp [runTransaction, h1, hres]
      rw [htr] at hmem
      simp only [List.cons_append, List.mem_cons, List.mem_append] at hmem
      rcases hmem with h | h | h
      · exact TransEvent.noConfusion h
      · obtain ⟨n, hn⟩ := runStage_events ox ps _ h
        exact TransEvent.noConfusion hn
      · simp at h
  · intro msg h1 h2 h3
    have hs := runStage_all_ok ox ps h2
    refine ⟨by simp [runTransaction, h1, hs, h3], rfl, ?_⟩
    intro hmem
    have htr : (runTransaction db ox ps).trace =
        .transInit :: (ps.map fun p => .addPkg p.name) ++
          [.transPrepare, .transRelease] := by
      simp [runTransaction, h1, hs, h3]
    rw [htr] at hmem
    simp only [List.cons_append, List.mem_cons, List.mem_append, List.mem_map] at hmem
    rcases hmem with h | h | h
    · exact TransEvent.noConfusion h
    · obtain ⟨p, _, hp⟩ := h
      exact TransEvent.noConfusion hp
    · simp at h
  · intro msg h1 h2 h3 h4
    have hs := runStage_all_ok ox ps h2
    exact ⟨by simp [runTransaction, h1, hs, h3, h4], rfl⟩

/-- Claim C1 (witness): with an all-successful oracle, installing one
package runs exactly one transaction: init, stage the entry, prepare,
commit, release, and the committed package lands in the local database. -/
theorem install_single_transaction_atomic_witness :
    oxAllOk.initErr = none ∧
    runTransaction [] oxAllOk [⟨"vim", "9.1-1"⟩] =
      ⟨.ok (), .transInit :: ([(⟨"vim", "9.1-1"⟩ : Pkg)].map fun p => .addPkg p.name) ++
        [.transPrepare, .transCommit, .transRelease], applyAll [] [⟨"vim", "9.1-1"⟩],
        ["Installation/upgrade complete."]⟩ :=
  ⟨rfl, (install_single_transaction_atomic [] oxAllOk [⟨"vim", "9.1-1"⟩]).1 rfl
    (fun _ _ => rfl) rfl rfl⟩

/-- Claim C2: once `TransInit` has succeeded in the package apply, the
transaction handle is released on every exit path: whatever the outcome of
staging, prepare, or commit, the last alpm call `Install` issues is
`TransRelease` (the Go `defer a.handle.TransRelease()` registered right
after a successful init). -/
theorem install_releases_transaction_handle (st : ArchState) (ox : TransOracle)
    (packages : List String) (hinit : ox.initErr = none)
    (hmem : TransEvent.transInit ∈ (install st ox packages).trace) :
    ((install st ox packages).trace).getLast? = some TransEvent.transRelease := by
  cases hl : ox.localDBErr with
  | some m => simp [install, hl] at hmem
  | none =>
    cases hsy : ox.syncDBsErr with
    | some m => simp [install, hl, hsy] at hmem
    | none =>
      cases hres : (resolvePackages st.syncDBs st.localDB packages).result with
      | error e => simp [install, hl, hsy, hres] at hmem
      | ok toInstall =>
        by_cases hemp : toInstall.isEmpty = true
        · simp [install, hl, hsy, hres, hemp] at hmem
        · rw [Bool.not_eq_true] at hemp
          have htr : (install st ox packages).trace =
              (runTransaction st.localDB ox toInstall).trace := by
            simp [install, hl, hsy, hres, hemp]
          rw [htr]
          obtain ⟨mid, hm⟩ := runTransaction_trace_shape st.localDB ox toInstall hinit
          rw [hm, show TransEvent.transInit :: (mid ++ [TransEvent.transRelease]) =
            (TransEvent.transInit :: mid) ++ [TransEvent.transRelease] from rfl]
          exact List.getLast?_concat _

/-- Claim C2 (witness): a successful one-package install initializes the
transaction and its last transaction call is the release. -/
theorem install_releases_transaction_handle_witness :
    oxAllOk.initErr = none ∧
    TransEvent.transInit ∈ (install stOne oxAllOk ["vim"]).trace ∧
    ((install stOne oxAllOk ["vim"]).trace).getLast? = some TransEvent.transRelease :=
  ⟨rfl, by decide,
    install_releases_transaction_handle stOne oxAllOk ["vim"] rfl (by decide)⟩

/-- Claim C3 (counterexample): when the desired package `ghost` is absent
from every remote repository, `Install` does not produce an Unresolved plan
entry — it fails, returning the error "package 'ghost' not found in remote
repositories"; the claim that the reconciliation call does not fail is
false. -/
theorem install_unresolved_package_is_error :
    (install stOne oxAllOk ["ghost"]).result = .error (.notFound "ghost") := by
  decide

/-- Claim C3 (amended): when a desired package resolves to no remote source
(its search is empty in every registered sync database, of which there is at
least one), `Install` returns the error "package '%s' not found in remote
repositories" naming the package; no Unresolved plan entry exists in the
code and the call fails instead of surfacing the item. -/
theorem install_no_source_returns_notfound (st : ArchState) (ox : TransOracle)
    (name : String) (hl : ox.localDBErr = none) (hs : ox.syncDBsErr = none)
    (hne : st.syncDBs ≠ []) (habs : ∀ db ∈ st.syncDBs, db.search name = []) :
    (install st ox [name]).result = .error (.notFound name) := by
  cases hdbs : st.syncDBs with
  | nil => exact absurd hdbs hne
  | cons db rest =>
    have hd : db.search name = [] := habs db (by rw [hdbs]; exact List.mem_cons_self _ _)
    simp [install, hl, hs, resolvePackages, resolveOne, processSyncDB, hdbs, hd]

/-- Claim C3 (witness): the amended behaviour at the concrete fixture: one
sync database, the name `ghost` matching nothing. -/
theorem install_no_source_returns_notfound_witness :
    stOne.syncDBs ≠ [] ∧ (∀ db ∈ stOne.syncDBs, db.search "ghost" = []) ∧
    (install stOne oxAllOk ["ghost"]).result = .error (.notFound "ghost") := by
  have habs : ∀ db ∈ stOne.syncDBs, db.search "ghost" = [] := by
    intro d hd
    simp only [stOne, List.mem_singleton] at hd
    subst hd
    decide
  exact ⟨by simp [stOne], habs,
    install_no_source_returns_notfound stOne oxAllOk "ghost" rfl rfl (by simp [stOne]) habs⟩

/-- Claim C4: for a package that is already installed, the resolution loop
queues an upgrade if and only if `alpm.VerCmp(remote, local)` is strictly
positive; when the remote version compares equal or less the package is
reported up to date and nothing is queued (downgrades are skipped).  The
comparison is the package ecosystem's ordering, not a lexicographic one:
byte-wise, "1.10" sorts below "1.9", yet `verCmp` ranks "1.10" above
"1.9". -/
theorem install_upgrade_iff_remote_newer :
    (∀ (localDB : List Pkg) (db : SyncDB) (name : String) (r lp : Pkg) (tl : List Pkg),
      db.search name = r :: tl → LocalDB.pkg localDB r.name = some lp →
      processSyncDB localDB db name =
        if 0 < verCmp r.version lp.version then
          (⟨.ok [r], ["Queueing upgrade for " ++ r.name ++ " (" ++ lp.version ++
            " -> " ++ r.version ++ ")"]⟩ : ResolveOut)
        else
          ⟨.ok [], [lp.name ++ " is already up to date (version " ++
            lp.version ++ ")"]⟩) ∧
    strcmpChars "1.10".data "1.9".data = -1 ∧ verCmp "1.10" "1.9" = 1 ∧
    verCmp "1.9" "1.10" = -1 ∧ verCmp "1.0" "1.0" = 0 ∧ verCmp "2:1.0" "1.99" = 1 := by
  refine ⟨?_, by decide, by decide, by decide, by decide, by decide⟩
  intro localDB db name r lp tl hs hl
  simp only [processSyncDB, hs, hl]

/-- Claim C4 (witness): with vim 9.0 installed and vim 9.1 advertised, the
loop queues the upgrade branch of the decision. -/
theorem install_upgrade_iff_remote_newer_witness :
    dbVimNew.search "vim" = [⟨"vim", "9.1"⟩] ∧
    LocalDB.pkg localVimOld "vim" = some ⟨"vim", "9.0"⟩ ∧
    processSyncDB localVimOld dbVimNew "vim" =
      (if 0 < verCmp "9.1" "9.0" then
        (⟨.ok [⟨"vim", "9.1"⟩], ["Queueing upgrade for " ++ "vim" ++ " (" ++ "9.0" ++
          " -> " ++ "9.1" ++ ")"]⟩ : ResolveOut)
      else
        ⟨.ok [], ["vim" ++ " is already up to date (version " ++ "9.0" ++ ")"]⟩) :=
  ⟨by decide, by decide,
    install_upgrade_iff_remote_newer.1 localVimOld dbVimNew "vim"
      ⟨"vim", "9.1"⟩ ⟨"vim", "9.0"⟩ [] (by decide) (by decide)⟩

/-- Claim C5 (counterexample): with two sync databases both advertising
`foo` (versions 1.0 and 2.0) and nothing installed, the resolution queues
`foo` twice — once per source, the first source's lower version included —
and the single transaction stages two entries for the same name.  The claim
that resolution selects the single highest version and queues the package
at most once is false. -/
theorem install_multi_source_queues_twice :
    (resolveOne [dbFooOld, dbFooNew] [] "foo").result =
      .ok [⟨"foo", "1.0"⟩, ⟨"foo", "2.0"⟩] ∧
    (install stFoo oxAllOk ["foo"]).trace =
      [.transInit, .addPkg "foo", .addPkg "foo",
        .transPrepare, .transCommit, .transRelease] :=
  ⟨by decide, by decide⟩

/-- Claim C5 (amended): for a desired package name, the resolution loop
processes each remote source independently: whenever every source's search
is non-empty, the queue holds one entry per sync database whose first search
result is absent locally or strictly newer than the installed version, in
database order — the same name is queued once per advertising source, with
no cross-source deduplication and no highest-version selection. -/
theorem install_queues_once_per_source :
    ∀ (dbs : List SyncDB) (localDB : List Pkg) (name : String),
      (∀ db ∈ dbs, db.search name ≠ []) →
      (resolveOne dbs localDB name).result = .ok (sourceQueue dbs localDB name)
  | [], _, _, _ => by simp [resolveOne, sourceQueue]
  | db :: rest, localDB, name, h => by
    have hd := h db (List.mem_cons_self _ _)
    have ih := install_queues_once_per_source rest localDB name
      fun d hd2 => h d (List.mem_cons_of_mem _ hd2)
    cases hsearch : db.search name with
    | nil => exact absurd hsearch hd
    | cons r tl =>
      cases hlp : LocalDB.pkg localDB r.name with
      | none =>
        simp [resolveOne, processSyncDB, sourceQueue, shouldQueue, hsearch, hlp, ih]
      | some lp =>
        by_cases hv : 0 < verCmp r.version lp.version
        · simp [resolveOne, processSyncDB, sourceQueue, shouldQueue, hsearch, hlp, hv, ih]
        · simp [resolveOne, processSyncDB, sourceQueue, shouldQueue, hsearch, hlp, hv, ih]

/-- Claim C5 (witness): the per-source queue at the two-source fixture. -/
theorem install_queues_once_per_source_witness :
    (∀ db ∈ [dbFooOld, dbFooNew], db.search "foo" ≠ []) ∧
    (resolveOne [dbFooOld, dbFooNew] [] "foo").result =
      .ok (sourceQueue [dbFooOld, dbFooNew] [] "foo") := by
  have h : ∀ db ∈ [dbFooOld, dbFooNew], db.search "foo" ≠ [] := by
    intro d hd
    rcases List.mem_cons.mp hd with rfl | hd2
    · decide
    · rcases List.mem_cons.mp hd2 with rfl | hd3
      · decide
      · simp at hd3
  exact ⟨h, install_queues_once_per_source [dbFooOld, dbFooNew] [] "foo" h⟩

/-- Claim C6: `CreateContainer` first checks that the target network exists;
when the check reports false it returns the error "network %s does not
exist" having issued only the network-list call and no container-creation
call, and a container-creation call is issued only when the check succeeded
with true. -/
theorem createContainer_checks_network_first (w : DockerWorld)
    (networkName image cname : String) :
    ((networkExists w networkName).1 = .ok false →
      createContainer w networkName image cname =
        (.error ("network " ++ networkName ++ " does not exist"), [.networkListCall])) ∧
    (∀ i n, DockerEvent.containerCreateCall i n ∈
        (createContainer w networkName image cname).2 →
      (networkExists w networkName).1 = .ok true) := by
  cases hnl : w.networkList with
  | error e =>
    constructor
    · intro hfalse
      simp [networkExists, hnl] at hfalse
    · intro i n hmem
      simp [createContainer, networkExists, hnl] at hmem
  | ok ns =>
    cases hany : ns.any (fun n => n.name = networkName) with
    | false =>
      constructor
      · intro _
        simp [createContainer, networkExists, hnl, hany]
      · intro i n hmem
        simp [createContainer, networkExists, hnl, hany] at hmem
    | true =>
      constructor
      · intro hfalse
        simp [networkExists, hnl, hany] at hfalse
      · intro i n _
        simp [networkExists, hnl, hany]

/-- Claim C6 (witness): against a daemon with no networks, creating a
container fails with the prerequisite error and the trace holds only the
network-list call. -/
theorem createContainer_checks_network_first_witness :
    (networkExists wNoNetwork "hiveden-network").1 = .ok false ∧
    createContainer wNoNetwork "hiveden-network" "nginx:latest" "web" =
      (.error ("network " ++ "hiveden-network" ++ " does not exist"),
        [.networkListCall]) :=
  ⟨by decide,
    (createContainer_checks_network_first wNoNetwork "hiveden-network"
      "nginx:latest" "web").1 (by decide)⟩

/-- Claim C7 (counterexample): in a three-entry batch whose middle entry has
an invalid image, the run-all loop creates and starts entries 1 and 3 and
logs the failure of entry 2 only — but the command returns nil (`err =
none`), so the claim that the engine returns a non-nil aggregate error
referencing the failed entries is false. -/
theorem runAll_failure_returns_nil_error :
    (runAllLoop wRunAll "hiveden-network" cfg3).err = none ∧
    (runAllLoop wRunAll "hiveden-network" cfg3).logs =
      ["Failed to create container c2: invalid reference format"] ∧
    DockerEvent.containerCreateCall "nginx" "c1" ∈
      (runAllLoop wRunAll "hiveden-network" cfg3).trace ∧
    DockerEvent.containerCreateCall "redis" "c3" ∈
      (runAllLoop wRunAll "hiveden-network" cfg3).trace ∧
    DockerEvent.containerStartCall "aaaaaaaaaaaa" ∈
      (runAllLoop wRunAll "hiveden-network" cfg3).trace :=
  ⟨by decide, by decide, by decide, by decide, by decide⟩

/-- Claim C7 (amended): container entries are applied one at a time in plan
order with independent-failure semantics — a failed entry is logged and the
loop continues, every entry is attempted (each gets its "Creating container
..." line) — but after the loop the command always returns nil: failures are
only logged, and no aggregate error is returned.  (Stated for runs that do
not hit the unguarded `resp.ID[:12]` panic.) -/
theorem runAll_continues_and_returns_nil :
    ∀ (w : DockerWorld) (networkName : String) (cfgs : List ContainerConfig),
      (runAllLoop w networkName cfgs).crashed = false →
      (runAllLoop w networkName cfgs).err = none ∧
      ∀ c ∈ cfgs, ("Creating container " ++ c.name ++ " with image " ++ c.image ++ "...")
        ∈ (runAllLoop w networkName cfgs).stdout
  | w, nn, [], _ => by simp [runAllLoop]
  | w, nn, c :: rest, h => by
    cases hc : (createContainer w nn c.image c.name).1 with
    | error e =>
      have hcr : (runAllLoop w nn (c :: rest)).crashed =
          (runAllLoop w nn rest).crashed := by
        simp [runAllLoop, hc]
      have ih := runAll_continues_and_returns_nil w nn rest (by rw [← hcr]; exact h)
      constructor
      · simp [runAllLoop, hc, ih.1]
      · intro d hd
        rcases List.mem_cons.mp hd with rfl | hd2
        · simp [runAllLoop, hc]
        · have hm := ih.2 d hd2
          simp [runAllLoop, hc]
          exact Or.inr hm
    | ok cid =>
      by_cases hlen : cid.length < 12
      · exfalso
        have : (runAllLoop w nn (c :: rest)).crashed = true := by
          simp [runAllLoop, hc, hlen]
        rw [h] at this
        exact Bool.noConfusion this
      · cases hst : w.containerStart cid with
        | some e =>
          have hcr : (runAllLoop w nn (c :: rest)).crashed =
              (runAllLoop w nn rest).crashed := by
            simp [runAllLoop, hc, hlen, hst]
          have ih := runAll_continues_and_returns_nil w nn rest (by rw [← hcr]; exact h)
          constructor
          · simp [runAllLoop, hc, hlen, hst, ih.1]
          · intro d hd
            rcases List.mem_cons.mp hd with rfl | hd2
            · simp [runAllLoop, hc, hlen, hst]
            · have hm := ih.2 d hd2
              simp [runAllLoop, hc, hlen, hst]
              exact Or.inr (Or.inr hm)
        | none =>
          have hcr : (runAllLoop w nn (c :: rest)).crashed =
              (runAllLoop w nn rest).crashed := by
            simp [runAllLoop, hc, hlen, hst]
          have ih := runAll_continues_and_returns_nil w nn rest (by rw [← hcr]; exact h)
          constructor
          · simp [runAllLoop, hc, hlen, hst, ih.1]
          · intro d hd
            rcases List.mem_cons.mp hd with rfl | hd2
            · simp [runAllLoop, hc, hlen, hst]
            · have hm := ih.2 d hd2
              simp [runAllLoop, hc, hlen, hst]
              exact Or.inr (Or.inr hm)

/-- Claim C7 (witness): on the three-entry fixture with a failing middle
entry, the run does not panic, returns nil, and the failing entry was still
attempted. -/
theorem runAll_continues_and_returns_nil_witness :
    (runAllLoop wRunAll "hiveden-network" cfg3).crashed = false ∧
    (runAllLoop wRunAll "hiveden-network" cfg3).err = none ∧
    ("Creating container " ++ "c2" ++ " with image " ++ "badimage" ++ "...")
      ∈ (runAllLoop wRunAll "hiveden-network" cfg3).stdout := by
  have h : (runAllLoop wRunAll "hiveden-network" cfg3).crashed = false := by decide
  have main := runAll_continues_and_returns_nil wRunAll "hiveden-network" cfg3 h
  exact ⟨h, main.1, main.2 ⟨"c2", "badimage"⟩ (by decide)⟩

/-- Claim C8: the export document contains exactly the listed containers
whose `managed-by` label equals `hiveden` (an absent label defaults to
"unknown" and is excluded), each mapped to the desired-state schema fields
name (first listed name, leading slash trimmed) and image, in listing
order; on a live state with exactly one labeled container web/nginx:latest
(plus a foreign one) the document's containers list is that single entry,
and with zero labeled containers the document is the explicit empty list
`containers: []`, not null/absent. -/
theorem export_exactly_managed_containers :
    (∀ (w : DockerWorld) (cs : List ContainerSummary),
      w.containerList true = .ok cs → (∀ c ∈ cs, 12 ≤ c.id.length) →
      exportManagedContainers w = .ok (yamlRenderExport (managedExportOf cs))) ∧
    exportManagedContainers wOneManaged =
      .ok "containers:\n- name: web\n  image: nginx:latest\n" ∧
    exportManagedContainers wNoneManaged = .ok "containers: []\n" := by
  refine ⟨?_, by decide, by decide⟩
  intro w cs hlist hlen
  simp [exportManagedContainers, listContainers, hlist,
    buildInfos_ok w.now cs hlen, managedConfigs_map]

/-- Claim C8 (witness): the general export characterization applied at the
one-managed-plus-one-foreign fixture. -/
theorem export_exactly_managed_containers_witness :
    wOneManaged.containerList true = .ok [sumWeb, sumForeign] ∧
    (∀ c ∈ [sumWeb, sumForeign], 12 ≤ c.id.length) ∧
    exportManagedContainers wOneManaged =
      .ok (yamlRenderExport (managedExportOf [sumWeb, sumForeign])) :=
  ⟨rfl, by decide,
    export_exactly_managed_containers.1 wOneManaged [sumWeb, sumForeign] rfl (by decide)⟩

/-- Claim C9 (counterexample): two worlds whose listings hold the same two
managed containers in opposite orders produce different serialized exports,
so the claim that export is sorted by name and byte-identical across listing
orders is false — the output follows the listing order. -/
theorem export_order_dependent :
    wOrderA.containerList true = .ok [sumWeb, sumApi] ∧
    wOrderB.containerList true = .ok [sumApi, sumWeb] ∧
    exportManagedContainers wOrderA ≠ exportManagedContainers wOrderB :=
  ⟨rfl, rfl, by decide⟩

/-- Claim C9 (amended): the export output is a function of the container
listing alone (in particular the observation clock does not influence it),
so two Export calls see byte-identical output whenever the listing is
unchanged; but the output preserves the listing order — it is not sorted by
name — so listings holding the same containers in different orders can
serialize differently. -/
theorem export_deterministic_in_listing :
    (∀ w1 w2 : DockerWorld, w1.containerList true = w2.containerList true →
      exportManagedContainers w1 = exportManagedContainers w2) ∧
    exportManagedContainers wOrderA ≠ exportManagedContainers wOrderB := by
  constructor
  · intro w1 w2 h
    cases hc : w2.containerList true with
    | error e => simp [exportManagedContainers, listContainers, h, hc]
    | ok cs =>
      by_cases hshort : ∃ c ∈ cs, c.id.length < 12
      · simp [exportManagedContainers, listContainers, h, hc,
          buildInfos_crash w1.now cs hshort, buildInfos_crash w2.now cs hshort]
      · push_neg at hshort
        simp [exportManagedContainers, listContainers, h, hc,
          buildInfos_ok w1.now cs hshort, buildInfos_ok w2.now cs hshort,
          managedConfigs_map]
  · decide

/-- Claim C9 (witness): two worlds sharing the listing but observed at
different clock times export identical bytes. -/
theorem export_deterministic_in_listing_witness :
    wOrderA.containerList true = wOrderAClock.containerList true ∧
    exportManagedContainers wOrderA = exportManagedContainers wOrderAClock :=
  ⟨rfl, export_deterministic_in_listing.1 wOrderA wOrderAClock rfl⟩

/-- Claim C10: `ListContainers` truncates every container ID with the
unguarded slice `c.ID[:12]`: when every listed ID has at least 12
characters the call succeeds and every returned ID is exactly the first 12
characters (length 12) of the raw ID, and as soon as any listed ID is
shorter than 12 the call panics. -/
theorem listContainers_truncates_ids (w : DockerWorld) (all : Bool)
    (cs : List ContainerSummary) (hls : w.containerList all = .ok cs) :
    ((∀ c ∈ cs, 12 ≤ c.id.length) →
      listContainers w all = .ok (cs.map (summaryToInfo w.now)) ∧
      ∀ c ∈ cs, (summaryToInfo w.now c).id = takeChars 12 c.id ∧
        (summaryToInfo w.now c).id.length = 12) ∧
    ((∃ c ∈ cs, c.id.length < 12) → listContainers w all = .crash) := by
  constructor
  · intro h
    refine ⟨by simp [listContainers, hls, buildInfos_ok w.now cs h], ?_⟩
    intro c hc
    refine ⟨rfl, ?_⟩
    have hmin : (takeChars 12 c.id).length = min 12 c.id.length :=
      takeChars_length 12 c.id
    rw [show (summaryToInfo w.now c).id = takeChars 12 c.id from rfl, hmin]
    exact Nat.min_eq_left (h c hc)
  · intro h
    simp [listContainers, hls, buildInfos_crash w.now cs h]

/-- Claim C10 (witness): the truncation on a listing of two 12-character
IDs. -/
theorem listContainers_truncates_ids_witness :
    wOneManaged.containerList true = .ok [sumWeb, sumForeign] ∧
    (∀ c ∈ [sumWeb, sumForeign], 12 ≤ c.id.length) ∧
    listContainers wOneManaged true =
      .ok ([sumWeb, sumForeign].map (summaryToInfo wOneManaged.now)) :=
  ⟨rfl, by decide,
    ((listContainers_truncates_ids wOneManaged true [sumWeb, sumForeign] rfl).1
      (by decide)).1⟩
